import Mathlib

/-!
Verification of the curriculum-document structuring pipeline of the
estud.ia repository (services/plan_parser_service.py, services/ai_client.py,
services/curriculum_service.py).

The Python code is shallowly embedded: strings are Lean `String`s viewed as
lists of characters, Python `None`/falsiness is made explicit, fallible code
returns `Except`/`Option`, the wall clock and the network are explicit
parameters, and the database session is a list of records.  Every definition
below mirrors a specific function of the source; comments name the source
symbol it embeds.
-/

namespace Estudia

/-! ## Python string model

Character predicates used by `str.strip`, `str.split`, `re` character
classes and `str.isupper`/`str.lower` of the source.  Case conversion and
casedness cover ASCII plus the Latin-1 letters used by Spanish text, which is
the alphabet of every string the source manipulates. -/

/-- Whitespace recognized by Python `str.strip`/`\s` (ASCII range). -/
def isPySpace (c : Char) : Bool :=
  c = ' ' || c = '\t' || c = '\n' || c = '\r' || c = '\x0b' || c = '\x0c'

/-- ASCII decimal digit, as matched by `\d`. -/
def isDigitCh (c : Char) : Bool :=
  '0' ≤ c && c ≤ '9'

/-- Uppercase letter (ASCII plus Latin-1 uppercase, e.g. `Á`). -/
def isUpperCh (c : Char) : Bool :=
  ('A' ≤ c && c ≤ 'Z') || (0xC0 ≤ c.toNat && c.toNat ≤ 0xDE && c.toNat ≠ 0xD7)

/-- Lowercase letter (ASCII plus Latin-1 lowercase, e.g. `á`). -/
def isLowerCh (c : Char) : Bool :=
  ('a' ≤ c && c ≤ 'z') || (0xDF ≤ c.toNat && c.toNat ≤ 0xFF && c.toNat ≠ 0xF7)

/-- A cased character in the sense of Python `str.isupper`. -/
def isCasedCh (c : Char) : Bool :=
  isUpperCh c || isLowerCh c

/-- Word character as matched by Python `\w` on Spanish text:
alphanumerics, underscore and Latin-1 letters. -/
def isWordCh (c : Char) : Bool :=
  isDigitCh c || ('a' ≤ c && c ≤ 'z') || ('A' ≤ c && c ≤ 'Z') || c = '_' ||
    isUpperCh c || isLowerCh c

/-- Embeds `str.lower` on one character (ASCII and Latin-1). -/
def toLowerCh (c : Char) : Char :=
  if 'A' ≤ c && c ≤ 'Z' then Char.ofNat (c.toNat + 32)
  else if 0xC0 ≤ c.toNat && c.toNat ≤ 0xDE && c.toNat ≠ 0xD7 then Char.ofNat (c.toNat + 32)
  else c

/-- Embeds `str.upper` on one character (ASCII and Latin-1). -/
def toUpperCh (c : Char) : Char :=
  if 'a' ≤ c && c ≤ 'z' then Char.ofNat (c.toNat - 32)
  else if 0xE0 ≤ c.toNat && c.toNat ≤ 0xFE && c.toNat ≠ 0xF7 then Char.ofNat (c.toNat - 32)
  else c

/-- Python `str.lower`. -/
def strLower (s : String) : String :=
  String.mk (s.toList.map toLowerCh)

/-- Python `str.upper`. -/
def strUpper (s : String) : String :=
  String.mk (s.toList.map toUpperCh)

/-- Drop from the end of a list every trailing character satisfying `p`. -/
def dropTrailing (p : Char → Bool) (cs : List Char) : List Char :=
  (cs.reverse.dropWhile p).reverse

/-- Python `str.strip()` (no argument): strip whitespace from both ends. -/
def pyStrip (s : String) : String :=
  String.mk (dropTrailing isPySpace (s.toList.dropWhile isPySpace))

/-- Python `str.strip(chars)`: strip the characters of `set` from both ends. -/
def pyStripChars (set : List Char) (s : String) : String :=
  String.mk (dropTrailing (fun c => set.contains c) (s.toList.dropWhile (fun c => set.contains c)))

/-- Python `str.split()` (no argument): split on whitespace runs, no empties. -/
def pySplitAux : List Char → List Char → List String
  | [], acc => if acc.isEmpty then [] else [String.mk acc.reverse]
  | c :: t, acc =>
    if isPySpace c then
      if acc.isEmpty then pySplitAux t [] else String.mk acc.reverse :: pySplitAux t []
    else pySplitAux t (c :: acc)

def pySplit (s : String) : List String :=
  pySplitAux s.toList []

/-- Line-boundary characters of Python `str.splitlines` (besides `\r\n`). -/
def isLineBreakCh (c : Char) : Bool :=
  c = '\n' || c = '\r' || c = '\x0b' || c = '\x0c' ||
    c = '\x1c' || c = '\x1d' || c = '\x1e' || c = '\x85' || c = '\u2028' || c = '\u2029'

/-- Python `str.splitlines()`: `""` gives `[]`, a trailing newline does not
produce a final empty line, and `\r\n` counts as one boundary. -/
def pySplitlinesAux : List Char → List Char → List String
  | [], acc => if acc.isEmpty then [] else [String.mk acc.reverse]
  | '\r' :: '\n' :: t, acc => String.mk acc.reverse :: pySplitlinesAux t []
  | c :: t, acc =>
    if isLineBreakCh c then String.mk acc.reverse :: pySplitlinesAux t []
    else pySplitlinesAux t (c :: acc)

def pySplitlines (s : String) : List String :=
  pySplitlinesAux s.toList []

/-- Python `str.replace(pat, rep)` for a non-empty `pat`: replace all
non-overlapping occurrences left to right.  `fuel` bounds the recursion and
is instantiated with the input length, which suffices because every step
consumes at least one character. -/
def replaceAllF : Nat → List Char → List Char → List Char → List Char
  | 0, cs, _, _ => cs
  | _ + 1, [], _, _ => []
  | fuel + 1, c :: t, pat, rep =>
    if pat ≠ [] && ((c :: t).take pat.length == pat) then
      rep ++ replaceAllF fuel ((c :: t).drop pat.length) pat rep
    else
      c :: replaceAllF fuel t pat rep

def pyReplace (s pat rep : String) : String :=
  String.mk (replaceAllF s.toList.length s.toList pat.toList rep.toList)

/-- First run of digits in the string: models `re.findall(r"\d+", s)[0]`. -/
def firstDigitRun : List Char → Option String
  | [] => none
  | c :: t =>
    if isDigitCh c then some (String.mk (c :: t.takeWhile isDigitCh))
    else firstDigitRun t

/-- First `n` characters: Python `s[:n]`. -/
def strTake (s : String) (n : Nat) : String :=
  String.mk (s.toList.take n)

/-- Python truthiness of an optional string (`None` and `""` are falsy). -/
def truthyOptStr : Option String → Bool
  | none => false
  | some s => s ≠ ""

/-- Python `a or b` on optional strings: `b` unless `a` is truthy. -/
def pyOrOpt (a b : Option String) : Option String :=
  if truthyOptStr a then a else b

/-- Python `a or b` where `b` is a plain string. -/
def pyOrStr (a : Option String) (b : String) : String :=
  match a with
  | some s => if s ≠ "" then s else b
  | none => b

/-! ## Regular-expression fragment

The area-keyword patterns seeded by migration `7e79bfe8c7c3` and the grade
heading pattern of `CurriculumService._segment_text` use only literal
characters, bracket classes like `[aá]`, an optional `?` on one character,
and `\s+`.  We represent such a pattern as a list of atoms and interpret it
with a backtracking matcher.  Classes are written in lowercase and the input
is lowercased before matching, which models `re.IGNORECASE`. -/

inductive RxAtom where
  /-- one character from the class -/
  | one (cs : List Char)
  /-- an optional character from the class (`x?`) -/
  | opt (cs : List Char)
  /-- `\s+` -/
  | sp
deriving DecidableEq

/-- Literal characters of a pattern, each a singleton class. -/
def rxLits (s : String) : List RxAtom :=
  s.toList.map (fun c => RxAtom.one [c])

/-- Backtracking match of a pattern against a prefix of `cs`.  Every
recursive call shrinks `atoms.length + cs.length`, so fuel equal to that sum
plus one never runs out. -/
def matchAtomsF : Nat → List RxAtom → List Char → Bool
  | 0, _, _ => false
  | _ + 1, [], _ => true
  | _ + 1, RxAtom.one _ :: _, [] => false
  | fuel + 1, RxAtom.one cls :: rest, c :: t =>
    cls.contains c && matchAtomsF fuel rest t
  | fuel + 1, RxAtom.opt _ :: rest, [] => matchAtomsF fuel rest []
  | fuel + 1, RxAtom.opt cls :: rest, c :: t =>
    (cls.contains c && matchAtomsF fuel rest t) || matchAtomsF fuel rest (c :: t)
  | _ + 1, RxAtom.sp :: _, [] => false
  | fuel + 1, RxAtom.sp :: rest, c :: t =>
    isPySpace c && (matchAtomsF fuel (RxAtom.sp :: rest) t || matchAtomsF fuel rest t)

def matchAtoms (atoms : List RxAtom) (cs : List Char) : Bool :=
  matchAtomsF (atoms.length + cs.length + 1) atoms cs

/-- Embeds `re.search` at any position of the (already lowercased) character list. -/
def searchFrom (atoms : List RxAtom) : List Char → Bool
  | [] => matchAtoms atoms []
  | c :: t => matchAtoms atoms (c :: t) || searchFrom atoms t

/-- Embeds `re.search(pattern, text, re.IGNORECASE)` as used by
`_looks_like_area_heading` and `_normalize_area_name`. -/
def searchCI (atoms : List RxAtom) (text : String) : Bool :=
  searchFrom atoms (text.toList.map toLowerCh)

/-! ## Configuration catalogs

`CurriculumService._grade_alias_map` builds an insertion-ordered dict from
the `curriculum_grade_alias` rows; `_area_keyword_list` an ordered list of
`(label, pattern)` from `curriculum_area_keyword`.  We model the combined
catalog as explicit ordered lists; `defaultConfig` holds the global rows
seeded by migration `7e79bfe8c7c3_curriculum_prompts_and_aliases.py`. -/

structure CatalogConfig where
  gradeAliases : List (String × String)
  areaKeywords : List (String × List RxAtom)

/-- Embeds `default_grade_aliases` of the migration, in insertion order. -/
def defaultGradeAliases : List (String × String) :=
  [("primero", "1"), ("primer", "1"), ("1", "1"),
   ("segundo", "2"), ("2", "2"),
   ("tercero", "3"), ("3", "3"),
   ("cuarto", "4"), ("4", "4"),
   ("quinto", "5"), ("5", "5"),
   ("sexto", "6"), ("6", "6"),
   ("séptimo", "7"), ("septimo", "7"), ("7", "7")]

/-- Embeds `default_area_keywords` of the migration, each regex transcribed into
atoms: e.g. `pr[aá]cticas?\s+del\s+lenguaje`. -/
def defaultAreaKeywords : List (String × List RxAtom) :=
  [("Prácticas del Lenguaje",
      rxLits "pr" ++ [RxAtom.one ['a', 'á']] ++ rxLits "ctica" ++ [RxAtom.opt ['s'], RxAtom.sp] ++
      rxLits "del" ++ [RxAtom.sp] ++ rxLits "lenguaje"),
   ("Matemática", rxLits "matem" ++ [RxAtom.one ['a', 'á']] ++ rxLits "tica"),
   ("Ciencias Naturales",
      rxLits "ciencia" ++ [RxAtom.opt ['s'], RxAtom.sp] ++ rxLits "naturale" ++ [RxAtom.opt ['s']]),
   ("Ciencias Sociales",
      rxLits "ciencia" ++ [RxAtom.opt ['s'], RxAtom.sp] ++ rxLits "sociale" ++ [RxAtom.opt ['s']]),
   ("Educación Física",
      rxLits "educaci" ++ [RxAtom.one ['o', 'ó']] ++ rxLits "n" ++ [RxAtom.sp] ++
      rxLits "f" ++ [RxAtom.one ['i', 'í']] ++ rxLits "sica"),
   ("Educación Tecnológica",
      rxLits "educaci" ++ [RxAtom.one ['o', 'ó']] ++ rxLits "n" ++ [RxAtom.sp] ++
      rxLits "tecnol" ++ [RxAtom.one ['o', 'ó']] ++ rxLits "gica"),
   ("Formación Ética y Ciudadana",
      rxLits "formaci" ++ [RxAtom.one ['o', 'ó']] ++ rxLits "n" ++ [RxAtom.sp] ++
      [RxAtom.one ['e', 'é']] ++ rxLits "tica" ++ [RxAtom.sp] ++ rxLits "y" ++ [RxAtom.sp] ++
      rxLits "ciudadana"),
   ("Informática", rxLits "inform" ++ [RxAtom.one ['a', 'á']] ++ rxLits "tica"),
   ("Artes", rxLits "arte" ++ [RxAtom.opt ['s']]),
   ("Música", rxLits "m" ++ [RxAtom.one ['u', 'ú']] ++ rxLits "sica"),
   ("Plástica", rxLits "pl" ++ [RxAtom.one ['a', 'á']] ++ rxLits "stica"),
   ("Teatro", rxLits "teatro")]

/-- The catalogs of a fresh installation (global rows only, no tenant rows). -/
def defaultConfig : CatalogConfig :=
  { gradeAliases := defaultGradeAliases, areaKeywords := defaultAreaKeywords }

/-! ## Grade-label normalization and heading detection
(`CurriculumService` helpers) -/

/-- Embeds `CurriculumService.normalize_grade_label`: lowercase and strip, drop the
degree signs and every occurrence of `"er"`, look the words up in the alias
map in insertion order, else fall back to the first digit run. -/
def normalizeGradeLabel (cfg : CatalogConfig) (raw : Option String) : Option String :=
  match raw with
  | none => none
  | some r =>
    if r = "" then none
    else
      let lowered := pyStrip (strLower r)
      let lowered := pyStrip (pyReplace (pyReplace (pyReplace lowered "°" "") "º" "") "er" "")
      match cfg.gradeAliases.find? (fun kv => (pySplit lowered).contains kv.1) with
      | some kv => some kv.2
      | none => firstDigitRun lowered.toList

/-- Embeds `CurriculumService._clean_heading_prefix`: drop leading page numbers,
bullets and separators (`^[\s\d\.\-–—•·]+\s*`), then strip. -/
def cleanHeadingNoise (s : String) : String :=
  if s = "" then ""
  else
    pyStrip (String.mk (s.toList.dropWhile
      (fun c => isPySpace c || isDigitCh c ||
        c = '.' || c = '-' || c = '–' || c = '—' || c = '•' || c = '·')))

/-- Collapse every maximal run of non-word characters (`[\s\W]+`) into one
space, as in `re.sub(r"[\s\W]+", " ", text)`.  The flag records whether the
previous character already opened such a run. -/
def collapseNonWordAux : Bool → List Char → List Char
  | _, [] => []
  | inRun, c :: t =>
    if isWordCh c then c :: collapseNonWordAux false t
    else if inRun then collapseNonWordAux true t
    else ' ' :: collapseNonWordAux true t

def collapseNonWord (s : String) : String :=
  String.mk (collapseNonWordAux false s.toList)

/-- Collapse whitespace runs into one space (`re.sub(r"\s+", " ", s)`). -/
def collapseWsAux : Bool → List Char → List Char
  | _, [] => []
  | inRun, c :: t =>
    if isPySpace c then
      if inRun then collapseWsAux true t else ' ' :: collapseWsAux true t
    else c :: collapseWsAux false t

def collapseWs (s : String) : String :=
  String.mk (collapseWsAux false s.toList)

/-- Python `str.isupper`: at least one cased character and no lowercase one. -/
def pyIsUpper (s : String) : Bool :=
  s.toList.any isCasedCh && s.toList.all (fun c => !isLowerCh c)

/-- Embeds `CurriculumService._looks_like_area_heading`. -/
def looksLikeAreaHeading (cfg : CatalogConfig) (text : String) : Bool :=
  if text.toList.length < 3 || text.toList.length > 80 then false
  else
    let normalized := pyStrip (collapseNonWord text)
    if pyIsUpper normalized then true
    else cfg.areaKeywords.any (fun p => searchCI p.2 text)

/-- Embeds `CurriculumService._normalize_area_name`: canonical label of the first
matching catalog pattern. -/
def normalizeAreaName (cfg : CatalogConfig) (text : String) : Option String :=
  cfg.areaKeywords.findSome? (fun p => if searchCI p.2 text then some p.1 else none)

/-- Embeds `CurriculumService._fallback_area_label`. -/
def fallbackAreaLabel (text : String) : Option String :=
  let stripped := pyStrip (pyStripChars [':', '.', '-'] (pyStrip text))
  let stripped := collapseWs stripped
  if stripped.toList.length < 3 then none else some (strTake stripped 80)

/-! ## The segmentation engine (`CurriculumService._segment_text`) -/

/-- The grade words of the heading regex
`^\s*((primer|primero|segundo|tercero|cuarto|quinto|sexto|séptimo|septimo)\s+grado)`,
in alternation order. -/
def gradeWords : List String :=
  ["primer", "primero", "segundo", "tercero", "cuarto", "quinto", "sexto",
   "séptimo", "septimo"]

/-- Search the grade-heading regex against the start of `line`
(`re.search` with a `^` anchor) and return `match.group(1)` in original
case.  The alternation backtracks exactly like the regex: a word matches
only when at least one whitespace character and `grado` (case-insensitive)
follow it. -/
def gradeHeadMatch (line : String) : Option String :=
  let rest := line.toList.dropWhile isPySpace
  gradeWords.findSome? (fun w =>
    let wl := w.toList
    if (rest.take wl.length).map toLowerCh = wl then
      let after := rest.drop wl.length
      let spRun := after.takeWhile isPySpace
      if spRun ≠ [] && ((after.drop spRun.length).take 5).map toLowerCh = "grado".toList then
        some (String.mk (rest.take wl.length ++ spRun ++ ((after.drop spRun.length).take 5)))
      else none
    else none)

/-- The grade-boundary scan of `_segment_text`: for every line whose cleaned
form matches the grade regex, record `(index, normalized label, stripped
line)`. -/
def gradeBreaksFrom (cfg : CatalogConfig) : List String → Nat → List (Nat × Option String × String)
  | [], _ => []
  | l :: t, i =>
    match gradeHeadMatch (cleanHeadingNoise l) with
    | some g => (i, normalizeGradeLabel cfg (some g), pyStrip l) :: gradeBreaksFrom cfg t (i + 1)
    | none => gradeBreaksFrom cfg t (i + 1)

/-- The per-line test of `_split_by_area`: the truthy area label of a line
taken as an area heading, or `none` when the line is skipped. -/
def areaHeadingLabel (cfg : CatalogConfig) (l : String) : Option String :=
  let clean := pyStrip l
  if clean = "" then none
  else
    let normalizedLine := cleanHeadingNoise clean
    if looksLikeAreaHeading cfg normalizedLine then
      let areaName :=
        let n := normalizeAreaName cfg normalizedLine
        if truthyOptStr n then n else fallbackAreaLabel normalizedLine
      if truthyOptStr areaName then areaName else none
    else none

/-- The area-heading scan of `_split_by_area`: relative line index and label
of every line taken as an area heading. -/
def areaHeadingIdx (cfg : CatalogConfig) : List String → Nat → List (Nat × String)
  | [], _ => []
  | l :: t, i =>
    match areaHeadingLabel cfg l with
    | some a => (i, a) :: areaHeadingIdx cfg t (i + 1)
    | none => areaHeadingIdx cfg t (i + 1)

/-- Turn heading indices into `(label, absolute start, absolute end)`
triples: each segment ends where the next heading starts, the last at
`absolute_start + len(lines)` (the `limit` argument). -/
def buildAreaSegs (absStart limit : Nat) : List (Nat × String) → List (String × Nat × Nat)
  | [] => []
  | (r, name) :: rest =>
    let e := match rest with
      | (r2, _) :: _ => r2
      | [] => limit
    (name, absStart + r, absStart + e) :: buildAreaSegs absStart limit rest

/-- Embeds `CurriculumService._split_by_area`. -/
def splitByArea (cfg : CatalogConfig) (lines : List String) (absStart : Nat) :
    List (String × Nat × Nat) :=
  buildAreaSegs absStart lines.length (areaHeadingIdx cfg lines 0)

/-- The record built per segment (`SegmentRecord` dataclass of the source). -/
structure SegmentRecord where
  grade_label : Option String
  area : Option String
  section_title : Option String
  content_text : String
  start_line : Nat
  end_line : Nat
deriving DecidableEq

/-- Python `lines[s:e]` for `0 ≤ s ≤ e`. -/
def sliceLines (lines : List String) (s e : Nat) : List String :=
  (lines.drop s).take (e - s)

/-- The segments of one grade-delimited slice `lines[startIdx:endIdx]`: a
slice with no area headings becomes one `"General"` segment, otherwise one
segment per area heading; empty texts are skipped. -/
def sliceSegs (cfg : CatalogConfig) (lines : List String) (startIdx endIdx : Nat)
    (gradeLabel : Option String) (heading : String) : List SegmentRecord :=
  let chunkLines := sliceLines lines startIdx endIdx
  let chunkText := pyStrip (String.intercalate "\n" chunkLines)
  if chunkText = "" then []
  else
    let areaSegs := splitByArea cfg chunkLines startIdx
    if areaSegs.isEmpty then
      [{ grade_label := gradeLabel, area := some "General",
         section_title := some heading, content_text := chunkText,
         start_line := startIdx, end_line := endIdx }]
    else
      areaSegs.filterMap (fun seg =>
        if pyStrip (String.intercalate "\n" (sliceLines lines seg.2.1 seg.2.2)) = "" then none
        else some { grade_label := gradeLabel, area := some seg.1,
                    section_title := some seg.1,
                    content_text :=
                      pyStrip (String.intercalate "\n" (sliceLines lines seg.2.1 seg.2.2)),
                    start_line := seg.2.1, end_line := seg.2.2 })

/-- The per-grade-slice loop of `_segment_text`: each break owns the lines
up to the next break (or the end of the document). -/
def emitSlices (cfg : CatalogConfig) (lines : List String) :
    List (Nat × Option String × String) → List SegmentRecord
  | [] => []
  | (startIdx, gradeLabel, heading) :: rest =>
    sliceSegs cfg lines startIdx
      (match rest with
        | (n, _, _) :: _ => n
        | [] => lines.length)
      gradeLabel heading ++ emitSlices cfg lines rest

/-- Embeds `CurriculumService._segment_text`: when the grade scan finds nothing,
the whole document is one slice with a null grade label. -/
def segmentText (cfg : CatalogConfig) (rawText : String) : List SegmentRecord :=
  if (gradeBreaksFrom cfg (pySplitlines rawText) 0).isEmpty then
    emitSlices cfg (pySplitlines rawText) [(0, none, "General")]
  else
    emitSlices cfg (pySplitlines rawText) (gradeBreaksFrom cfg (pySplitlines rawText) 0)

/-! ## Chunking (`PlanParserService._chunk_text`) -/

/-- Index of the last occurrence of `c`, as Python `str.rfind` (`none` for
`-1`). -/
def rfindIdxAux (c : Char) : List Char → Nat → Option Nat → Option Nat
  | [], _, best => best
  | d :: t, i, best =>
    rfindIdxAux c t (i + 1) (if d = c then some i else best)

def rfindIdx (c : Char) (cs : List Char) : Option Nat :=
  rfindIdxAux c cs 0 none

/-- The `while start < length` loop of `_chunk_text`.  `overlap` has already
been clamped to `maxChars / 2`.  Fuel decreases every iteration; the next
`start` is `max (end - overlap) (start + maxChars)` exactly as in the
source, so `clean.length + 1` iterations always suffice. -/
def chunkLoopF : Nat → List Char → Nat → Nat → Nat → List String
  | 0, _, _, _, _ => []
  | fuel + 1, clean, maxChars, overlap, start =>
    if start < clean.length then
      let end0 := min clean.length (start + maxChars)
      let chunk0 := (clean.drop start).take (end0 - start)
      let cut :=
        if end0 < clean.length then
          match rfindIdx '\n' chunk0 with
          | some k => if 2 * k > maxChars then (start + k, chunk0.take k) else (end0, chunk0)
          | none => (end0, chunk0)
        else (end0, chunk0)
      let stripped := pyStrip (String.mk cut.2)
      if stripped = "" then []
      else if cut.1 ≥ clean.length then [stripped]
      else stripped ::
        chunkLoopF fuel clean maxChars overlap (max (cut.1 - overlap) (start + maxChars))
    else []

/-- Embeds `PlanParserService._chunk_text(text, max_chars, overlap)`. -/
def chunkText (text : String) (maxChars overlap : Nat) : List String :=
  let clean := pyStrip text
  if clean = "" then []
  else chunkLoopF (clean.toList.length + 1) clean.toList maxChars (min overlap (maxChars / 2)) 0

/-- Embeds `PlanParserService.MAX_CHARS`. -/
def MAX_CHARS : Nat := 6000

/-- Embeds `PlanParserService.OVERLAP`. -/
def OVERLAP : Nat := 400

/-! ## JSON values and the tolerant payload recovery

`json.loads` belongs to the Python standard library, an external
collaborator of this code; we model its possible results with `JVal` and
take the parse function itself as a parameter `jsonParse` of the pipeline,
quantifying claims over its behavior. -/

/-- A Python float as `json.loads` can produce one: every finite double is
a rational number, and overflowing literals such as `1e400` (or the
accepted `Infinity`/`NaN` tokens) give the three non-finite values.  The
pipeline never does float arithmetic; it only tests truthiness and applies
`int()`/`str()`, for which this model is exact (up to the decimal rendering
of `str`). -/
inductive PyFloat where
  | finite (q : Rat)
  | inf
  | ninf
  | nan
deriving DecidableEq

inductive JVal where
  | null
  | bool (b : Bool)
  /-- an integer literal (`json.loads` returns Python `int`) -/
  | num (n : Int)
  /-- a float literal (`json.loads` returns Python `float`) -/
  | flt (f : PyFloat)
  | str (s : String)
  | arr (xs : List JVal)
  | obj (fields : List (String × JVal))

/-- Python truthiness of a JSON value (`bool(nan)` is `True`, `0.0` and
`-0.0` are falsy). -/
def jTruthy : JVal → Bool
  | .null => false
  | .bool b => b
  | .num n => n ≠ 0
  | .flt (.finite q) => q.num != 0
  | .flt _ => true
  | .str s => s ≠ ""
  | .arr xs => !xs.isEmpty
  | .obj fs => !fs.isEmpty

/-- Embeds `dict.get` on an object's fields (first binding wins, as dict keys are
unique). -/
def jGet (fields : List (String × JVal)) (k : String) : Option JVal :=
  (fields.find? (fun kv => kv.1 = k)).map (fun kv => kv.2)

mutual

/-- Python `str(value)`, approximated for the scalar shapes the pipeline
meets; containers render with brackets and comma separators. -/
def pyStr : JVal → String
  | .null => "None"
  | .bool true => "True"
  | .bool false => "False"
  | .num n => toString n
  | .flt (.finite q) => toString q
  | .flt .inf => "inf"
  | .flt .ninf => "-inf"
  | .flt .nan => "nan"
  | .str s => s
  | .arr xs => "[" ++ String.intercalate ", " (pyStrList xs) ++ "]"
  | .obj fs => "\x7b" ++ String.intercalate ", " (pyStrFields fs) ++ "\x7d"

/-- Renders the elements of a JSON array for `pyStr`. -/
def pyStrList : List JVal → List String
  | [] => []
  | x :: xs => pyStr x :: pyStrList xs

/-- Renders the fields of a JSON object for `pyStr`. -/
def pyStrFields : List (String × JVal) → List String
  | [] => []
  | kv :: fs => (kv.1 ++ ": " ++ pyStr kv.2) :: pyStrFields fs
end

/-- First index of character `c` (Python `str.find`, `none` for `-1`). -/
def findIdxAux (c : Char) : List Char → Nat → Option Nat
  | [], _ => none
  | d :: t, i => if d = c then some i else findIdxAux c t (i + 1)

def findIdx (c : Char) (cs : List Char) : Option Nat :=
  findIdxAux c cs 0

/-- Embeds `PlanParserService._extract_json_candidate`: slice from the first `[` or
`{` to the last `]` or `}`. -/
def extractJsonCandidate (text : String) : Option String :=
  if text = "" then none
  else
    let cs := text.toList
    let startB := findIdx '[' cs
    let startC := findIdx '\x7b' cs
    let start := match startB, startC with
      | none, none => none
      | none, some c => some c
      | some b, none => some b
      | some b, some c => some (min b c)
    match start with
    | none => none
    | some s =>
      let endIdx := match rfindIdx '\x7d' cs, rfindIdx ']' cs with
        | none, none => none
        | none, some b => some b
        | some c, none => some c
        | some c, some b => some (max c b)
      match endIdx with
      | none => none
      | some e =>
        if e ≤ s then none
        else some (String.mk ((cs.drop s).take (e + 1 - s)))

/-- Embeds `PlanParserService._parse_llm_payload`, parameterized by the behavior of
`json.loads` (`none` models `json.JSONDecodeError`): the list of item dicts,
or `[]` whenever nothing recognizable comes back. -/
def parseLlmPayload (jsonParse : String → Option JVal) (rawText : String) :
    List (List (String × JVal)) :=
  match extractJsonCandidate rawText with
  | none => []
  | some candidate =>
    match jsonParse candidate with
    | none => []
    | some (.arr xs) =>
      xs.filterMap (fun v => match v with
        | .obj fs => some fs
        | _ => none)
    | some (.obj fields) =>
      match ["items", "plan_items", "data"].findSome? (fun k =>
          match jGet fields k with
          | some (.arr xs) => some xs
          | _ => none) with
      | some xs =>
        xs.filterMap (fun v => match v with
          | .obj fs => some fs
          | _ => none)
      | none => []
    | some _ => []

/-! ## The generative backend abstraction (`services/ai_client.py`)

Environment variables are optional strings; the wall clock
(`datetime.utcnow()`) is an explicit `PyTime`; the network is an explicit
`NetOutcome`.  Float knobs (temperature, timeout) play no role in any claim
and are not carried in the state. -/

structure AIEnv where
  ai_api_key : Option String
  openai_api_key : Option String
  ai_provider : Option String
  ai_model : Option String

/-- The fields of `AIClient` that `generate` reads. -/
structure AIClientState where
  api_key : Option String
  provider : String
  model : String
deriving DecidableEq

/-- Provider resolution of `AIClient.__init__`: normalize and validate the
per-call override (unsupported values are logged and dropped), else the
`AI_PROVIDER` environment value lowercased, else `"openai"` when a
credential is present, else `"heuristic"`. -/
def resolveProvider (env : AIEnv) (providerOverride : Option String) : String :=
  let apiKey := pyOrOpt env.ai_api_key env.openai_api_key
  let norm := strLower (pyStrip (pyOrStr providerOverride ""))
  let overrideNorm : Option String :=
    if norm = "" then none
    else if norm = "openai" || norm = "heuristic" then some norm
    else none
  match overrideNorm with
  | some p => p
  | none =>
    if truthyOptStr env.ai_provider then strLower (pyOrStr env.ai_provider "")
    else if truthyOptStr apiKey then "openai"
    else "heuristic"

/-- Embeds `AIClient.__init__` (the claim-relevant fields). -/
def mkAIClient (env : AIEnv) (providerOverride modelOverride : Option String) : AIClientState :=
  { api_key := pyOrOpt env.ai_api_key env.openai_api_key
    provider := resolveProvider env providerOverride
    model :=
      let defaultModel := pyOrStr env.ai_model "gpt-4o-mini"
      let overrideModel := pyStrip (pyOrStr modelOverride "")
      if overrideModel ≠ "" then overrideModel else defaultModel }

/-- The provider-selection chain as the specification states it: an ordered
list of resolvers, each giving a definitive choice or no opinion, with the
offline heuristic as the final default. -/
def specProviderResolvers (env : AIEnv) (providerOverride : Option String) :
    List (Option String) :=
  [ (let norm := strLower (pyStrip (pyOrStr providerOverride ""))
     if norm = "openai" || norm = "heuristic" then some norm else none),
    (if truthyOptStr env.ai_provider then some (strLower (pyOrStr env.ai_provider "")) else none),
    (if truthyOptStr (pyOrOpt env.ai_api_key env.openai_api_key) then some "openai" else none) ]

def specProvider (env : AIEnv) (providerOverride : Option String) : String :=
  ((specProviderResolvers env providerOverride).findSome? id).getD "heuristic"

/-- The context dict handed to `generate`, restricted to the keys
`_heuristic_response` reads; metric values are carried in their rendered
form.  Keys of `metrics`/`learning` beyond the ones read still influence
truthiness, hence the explicit association lists. -/
structure LearningCtx where
  no_help_rate : Option String
  actions : List String
deriving DecidableEq

structure AIContext where
  scope : Option String
  metrics : List (String × String)
  highlights : List String
  followups : List String
  learning : LearningCtx
deriving DecidableEq

/-- A deterministic stand-in for `json.dumps(context, ensure_ascii=False)`. -/
def ctxSnapshot (ctx : AIContext) : String :=
  "scope=" ++ (ctx.scope.getD "global") ++
  ";metrics=" ++ String.intercalate "," (ctx.metrics.map (fun kv => kv.1 ++ "=" ++ kv.2)) ++
  ";highlights=" ++ String.intercalate "," ctx.highlights ++
  ";followups=" ++ String.intercalate "," ctx.followups ++
  ";no_help_rate=" ++ (ctx.learning.no_help_rate.getD "") ++
  ";actions=" ++ String.intercalate "," ctx.learning.actions

/-- The result dict of `AIClient.generate`. -/
structure GenResult where
  text : String
  model : String
  provider : String
  context_snapshot : String
deriving DecidableEq

/-- The wall clock as read by `datetime.utcnow()` and rendered by
`%d/%m %H:%M`. -/
structure PyTime where
  day : Nat
  month : Nat
  hour : Nat
  minute : Nat
deriving DecidableEq

def pad2 (n : Nat) : String :=
  if n < 10 then "0" ++ toString n else toString n

def fmtTime (t : PyTime) : String :=
  pad2 t.day ++ "/" ++ pad2 t.month ++ " " ++ pad2 t.hour ++ ":" ++ pad2 t.minute

/-- Dict lookup on the rendered metrics. -/
def metricsGet (metrics : List (String × String)) (k : String) : Option String :=
  (metrics.find? (fun kv => kv.1 = k)).map (fun kv => kv.2)

/-- Embeds `AIClient._heuristic_response`.  The first line interpolates
`datetime.utcnow():%d/%m %H:%M`, hence the `now` parameter. -/
def heuristicResponse (self : AIClientState) (now : PyTime) (prompt : String)
    (ctx : AIContext) (providerOverride : Option String) : GenResult :=
  let scope := ctx.scope.getD "global"
  let header :=
    "Reporte " ++ strUpper scope ++ " — generado automáticamente (" ++
      fmtTime now ++ " UTC)."
  let metricLines :=
    if ctx.metrics.isEmpty then []
    else
      ["Resumen de métricas:"] ++
      (match metricsGet ctx.metrics "tasks_total" with
        | some v => ["- Tareas evaluadas: " ++ v]
        | none => []) ++
      (match metricsGet ctx.metrics "approvals" with
        | some v =>
          ["- Aprobaciones: " ++ v ++ " · " ++
            (metricsGet ctx.metrics "approval_rate").getD "0" ++ "%"]
        | none => []) ++
      (match ctx.learning.no_help_rate with
        | some v => ["- % de entregas sin ayudas: " ++ v ++ "%"]
        | none => []) ++
      (match metricsGet ctx.metrics "late_submissions" with
        | some v => ["- Entregas tardías: " ++ v]
        | none => []) ++
      [""]
  let highlightLines :=
    if ctx.highlights.isEmpty then []
    else ["Hallazgos relevantes:"] ++ ctx.highlights.map (fun h => "- " ++ h) ++ [""]
  let followupLines :=
    if ctx.followups.isEmpty then []
    else ["Seguimientos psicopedagógicos:"] ++ ctx.followups.map (fun f => "- " ++ f) ++ [""]
  let recLines :=
    ["Recomendaciones sugeridas:"] ++
    (if !ctx.learning.actions.isEmpty then ctx.learning.actions.map (fun a => "- " ++ a)
     else ["- Mantener el monitoreo semanal y reforzar en grupos reducidos."])
  let body :=
    pyStrip (String.intercalate "\n"
      ([header, ""] ++ metricLines ++ highlightLines ++ followupLines ++ recLines))
  { text := body
    model := "heuristic"
    provider := pyOrStr providerOverride self.provider
    context_snapshot := ctxSnapshot ctx }

/-- One networked call, seen from `_openai_response`: it fails (HTTP error,
network error, timeout, or an undecodable/ill-shaped body), or it delivers
the response's optional model name and the `choices[0].message.content`
string. -/
inductive NetOutcome where
  | httpError (code : Nat) (detail : String)
  | urlError (reason : String)
  | timeout
  | badPayload (message : String)
  | ok (respModel : Option String) (content : String)

/-- Embeds `AIClient._openai_response` given the network's behavior: every failure
becomes a raised exception (`Except.error`), and an empty (stripped) message
raises as well. -/
def openaiResponse (self : AIClientState) (ctx : AIContext) (net : NetOutcome) :
    Except String GenResult :=
  match net with
  | .httpError code detail => .error ("OpenAI HTTP " ++ toString code ++ ": " ++ detail)
  | .urlError reason => .error ("OpenAI request error: " ++ reason)
  | .timeout => .error "timed out"
  | .badPayload message => .error message
  | .ok respModel content =>
    let message := pyStrip content
    if message = "" then .error "OpenAI devolvió una respuesta vacía."
    else .ok { text := message
               model := pyOrStr respModel self.model
               provider := "openai"
               context_snapshot := ctxSnapshot ctx }

/-- Embeds `AIClient.generate`: try the networked provider only when configured and
credentialed; any exception falls back to `_heuristic_response` with
`provider_override="heuristic"`. -/
def generate (self : AIClientState) (net : NetOutcome) (now : PyTime)
    (prompt : String) (ctx : AIContext) : GenResult :=
  if self.provider = "openai" && truthyOptStr self.api_key then
    match openaiResponse self ctx net with
    | .ok r => r
    | .error _ => heuristicResponse self now prompt ctx (some "heuristic")
  else heuristicResponse self now prompt ctx (some "heuristic")

/-! ## Per-item normalization and the extraction pipeline
(`PlanParserService._collect_llm_items` and helpers) -/

/-- Embeds `PlanParserService._coerce_grade`. Python `bool` is an `int`, so `True`
renders as `"1"`.  `isinstance(value, (int, float))` takes the
`str(int(value))` branch, where `int()` truncates a finite float toward
zero but raises `OverflowError` on an infinity and `ValueError` on `NaN` —
modeled as `Except.error`. -/
def coerceGrade (value : Option JVal) : Except String (Option String) :=
  match value with
  | none => .ok none
  | some .null => .ok none
  | some (.num n) => .ok (some (toString n))
  | some (.bool b) => .ok (some (if b then "1" else "0"))
  | some (.flt (.finite q)) => .ok (some (toString (q.num.tdiv (q.den : Int))))
  | some (.flt .inf) => .error "OverflowError: cannot convert float infinity to integer"
  | some (.flt .ninf) => .error "OverflowError: cannot convert float infinity to integer"
  | some (.flt .nan) => .error "ValueError: cannot convert float NaN to integer"
  | some v =>
    let s := pyStrip (pyStr v)
    .ok (if s = "" then none else some s)

/-- Embeds `(payload.get(k) or "").strip()`: a missing or falsy value strips the
empty string; a truthy non-string raises `AttributeError`. -/
def pyGetStrOr (fields : List (String × JVal)) (k : String) : Except String String :=
  match jGet fields k with
  | none => .ok ""
  | some v =>
    if !jTruthy v then .ok ""
    else match v with
      | .str s => .ok (pyStrip s)
      | _ => .error "AttributeError: strip"

/-- Python `a or b` on optional JSON values: the first truthy operand, else
the last one. -/
def jOr (a b : Option JVal) : Option JVal :=
  match a with
  | some v => if jTruthy v then some v else b
  | none => b

/-- Set `k := v` in a dict, keeping insertion order (`{**d, k: v}`). -/
def dictSet (d : List (String × JVal)) (k : String) (v : JVal) : List (String × JVal) :=
  if d.any (fun kv => kv.1 = k) then
    d.map (fun kv => if kv.1 = k then (k, v) else kv)
  else d ++ [(k, v)]

/-- Split a class-ideas string into cleaned lines
(`line.strip("•- ").strip()` for each non-blank line). -/
def ideasFromString (s : String) : List String :=
  (pySplitlines s).filterMap (fun line =>
    if pyStrip line = "" then none
    else some (pyStrip (pyStripChars ['•', '-', ' '] line)))

/-- Embeds `PlanParserService._merge_metadata`. -/
def mergeMetadata (payload : List (String × JVal)) (fragmentIndex : Nat) :
    List (String × JVal) :=
  let userMetadata := match jGet payload "metadata" with
    | some (.obj fs) => fs
    | _ => []
  let classIdeasRaw := jOr (jGet payload "class_ideas") (jOr (jGet payload "ideas") (jGet payload "actividades"))
  let classIdeas : List String := match classIdeasRaw with
    | some (.str s) => ideasFromString s
    | some (.arr xs) => (xs.map (fun v => pyStrip (pyStr v))).filter (fun s => s ≠ "")
    | _ => []
  let metadata := dictSet (dictSet userMetadata "fragment_index" (.num fragmentIndex))
      "source" (.str "llm_plan_parser")
  let metadata :=
    if classIdeas.isEmpty then metadata
    else dictSet metadata "class_ideas" (.arr (classIdeas.map JVal.str))
  let metadata :=
    match jOr (jGet payload "title") (jOr (jGet payload "titulo") (jGet payload "nombre")) with
    | some v => if jTruthy v then dictSet metadata "title" (.str (pyStrip (pyStr v))) else metadata
    | none => metadata
  match jOr (jGet payload "period") (jGet payload "periodo") with
  | some v => if jTruthy v then dictSet metadata "period" (.str (pyStrip (pyStr v))) else metadata
  | none => metadata

/-- One collected item payload (the dict appended to `collected`). -/
structure ItemPayload where
  grado : Option String
  grado_normalizado : Option String
  area : String
  descripcion : String
  metadata : List (String × JVal)

/-- The `for payload in items` loop body of `_collect_llm_items`: items with
an empty description are dropped, the area defaults to `"General"`, the
grade is coerced and normalized.  A truthy non-string `descripcion` or
`area` raises (`Except.error`), exactly as `.strip()` does on a non-string.
-/
def itemsOfPayloads (cfg : CatalogConfig) (fragmentIndex : Nat) :
    List (List (String × JVal)) → Except String (List ItemPayload)
  | [] => .ok []
  | payload :: rest =>
    match pyGetStrOr payload "descripcion" with
    | .error e => .error e
    | .ok description =>
      if description = "" then
        itemsOfPayloads cfg fragmentIndex rest
      else
        match pyGetStrOr payload "area" with
        | .error e => .error e
        | .ok area0 =>
          match coerceGrade (jGet payload "grado") with
          | .error e => .error e
          | .ok grade =>
            let area := if area0 = "" then "General" else area0
            let normalizedGrade := match grade with
              | some g => if g ≠ "" then normalizeGradeLabel cfg (some g) else none
              | none => none
            match itemsOfPayloads cfg fragmentIndex rest with
            | .error e => .error e
            | .ok tail =>
              .ok ({ grado := grade
                     grado_normalizado := normalizedGrade
                     area := strTake area 255
                     descripcion := description
                     metadata := mergeMetadata payload fragmentIndex } :: tail)

/-- Embeds `PlanParserService.LLM_INSTRUCTION` (after `.strip()`). -/
def LLM_INSTRUCTION : String :=
  "Actúas como un parser semántico de documentos educativos (planes de estudio, diseños curriculares, programas, bibliografías).\n" ++
  "Recibirás un FRAGMENTO de texto en español perteneciente a un plan de estudio.\n" ++
  "Debes devolver EXCLUSIVAMENTE un JSON válido (sin comentarios ni texto extra) con una lista de ítems, donde cada ítem tiene:\n" ++
  "- \"grado\": string con el número de grado (por ejemplo \"1\", \"2\", \"3\") o null si no se especifica en este fragmento.\n" ++
  "- \"area\": nombre de la materia/área (por ejemplo Lengua, Matemática, Ciencias Sociales, Ciencias Naturales, Educación Artística, Inglés, etc.). Si el fragmento es más bien bibliográfico, puedes usar áreas temáticas como \"Educación intercultural\", \"Alfabetización inicial\", etc.\n" ++
  "- \"descripcion\": un resumen corto (2–4 frases máximo) con los contenidos u objetivos asociados a ese grado y área en este fragmento. No pegues bloques largos de texto literal: sintetiza.\n" ++
  "Si el fragmento no tiene información aprovechable, devuelve []."

/-- Embeds `PlanParserService._build_prompt`. -/
def buildPrompt (fragment : String) (index : Nat) : String :=
  pyStrip (LLM_INSTRUCTION ++ "\n\nFragmento #" ++ toString (index + 1) ++ ":\n<<<\n" ++
    fragment ++ "\n>>>\nDevuelve solo el JSON.\n")

/-- One window of `_collect_llm_items`: a raised `client.generate` is caught
and contributes nothing; otherwise the response text goes through the
tolerant payload recovery and the item loop. -/
def windowItems (jsonParse : String → Option JVal) (cfg : CatalogConfig)
    (fragmentIndex : Nat) (outcome : Except String GenResult) :
    Except String (List ItemPayload) :=
  match outcome with
  | .error _ => .ok []
  | .ok result =>
    itemsOfPayloads cfg fragmentIndex (parseLlmPayload jsonParse result.text)

/-- The window loop of `_collect_llm_items`; `oracle` is the behavior of
`client.generate` on each prompt. -/
def collectWindows (jsonParse : String → Option JVal) (cfg : CatalogConfig)
    (oracle : String → Except String GenResult) :
    List (Nat × String) → Except String (List ItemPayload)
  | [] => .ok []
  | (i, fragment) :: rest =>
    match windowItems jsonParse cfg i (oracle (buildPrompt fragment i)) with
    | .error e => .error e
    | .ok items =>
      match collectWindows jsonParse cfg oracle rest with
      | .error e => .error e
      | .ok tail => .ok (items ++ tail)

/-- Embeds `PlanParserService._collect_llm_items` (the `extractItems` pipeline):
chunk the text, call the backend once per window, tolerantly parse, and
normalize.  An `Except.error` result models an exception escaping the
pipeline. -/
def collectLlmItems (jsonParse : String → Option JVal) (cfg : CatalogConfig)
    (oracle : String → Except String GenResult) (text : String)
    (maxChars overlap : Nat) : Except String (List ItemPayload) :=
  collectWindows jsonParse cfg oracle ((chunkText text maxChars overlap).enum)

/-! ## PDF text extraction (`CurriculumService._extract_pdf_text`)

The external `pdftotext` process and the `pypdf` reader are collaborators;
their behavior is passed in explicitly.  `cli = none` models a host without
the binary; `stdout` carries the already-decoded standard output (decoding
drops invalid bytes, so an empty string also covers empty output). -/

structure RunResult where
  returncode : Int
  stdout : String
  stderr : String
deriving DecidableEq

inductive PdfReadOutcome where
  /-- `pypdf` is not importable (`PdfReader is None`). -/
  | noReader
  /-- reading or page extraction raised with this message -/
  | readError (message : String)
  /-- the per-page texts returned by `page.extract_text() or ""` -/
  | pages (texts : List String)

/-- Python `"x" in s.lower()` for the cryptography probe. -/
def containsSub (s sub : String) : Bool :=
  decide (List.IsInfix sub.toList s.toList)

/-- Embeds `CurriculumService._extract_pdf_text_pure`.  The internal
`RuntimeError("El PDF no contiene texto legible.")` is itself caught by the
surrounding `except` and re-wrapped. -/
def extractPdfTextPure (po : PdfReadOutcome) : Except String String :=
  match po with
  | .noReader =>
    .error "Instala \x27pdftotext\x27 o el paquete pypdf para leer archivos PDF."
  | .readError message =>
    if containsSub (strLower message) "cryptography" then
      .error ("No se pudo leer el PDF sin pdftotext: falta la dependencia \x27cryptography\x27. " ++
        "Instala \x27cryptography>=3.1\x27 o ejecuta \x27pip install pypdf[crypto]\x27.")
    else
      .error ("No se pudo leer el PDF sin pdftotext: " ++ message)
  | .pages texts =>
    let pieces := texts.filter (fun t => t ≠ "")
    let content := pyStrip (String.intercalate "\n" pieces)
    if content = "" then
      .error "No se pudo leer el PDF sin pdftotext: El PDF no contiene texto legible."
    else .ok content

/-- Embeds `CurriculumService._extract_pdf_text`: prefer the `pdftotext` binary;
its stdout is returned whenever the exit status is `0` and the output is
non-empty, otherwise fall back to the in-process reader. -/
def extractPdfText (cli : Option RunResult) (po : PdfReadOutcome) : Except String String :=
  match cli with
  | some result =>
    if result.returncode = 0 && result.stdout ≠ "" then .ok result.stdout
    else extractPdfTextPure po
  | none => extractPdfTextPure po

/-! ## Ingestion (`CurriculumService.ingest_from_text` / `ingest_from_file`)

Both entry points create the document in `processing` status, run
`_segment_text` inside a `try`, add every produced segment to the session,
and commit either `ready` with the full batch or `error` with the caught
message and no segments.  All heading detection and segment construction
happens inside the `_segment_text` call, whose outcome (normal return or
raised exception) is the `segOutcome` parameter. -/

structure IngestedDocument where
  status : String
  error_message : Option String
  segment_count : Option Nat
  persisted_segments : List SegmentRecord
deriving DecidableEq

def ingestDocument (segOutcome : Except String (List SegmentRecord)) : IngestedDocument :=
  match segOutcome with
  | .ok segments =>
    { status := "ready"
      error_message := none
      segment_count := some segments.length
      persisted_segments := segments }
  | .error message =>
    { status := "error"
      error_message := some message
      segment_count := none
      persisted_segments := [] }

/-- Embeds `ingest_from_text` when `_segment_text` runs normally on `rawText`. -/
def ingestFromText (cfg : CatalogConfig) (rawText : String) : IngestedDocument :=
  ingestDocument (.ok (segmentText cfg rawText))

/-! ## The grade-filtered segment query
(`CurriculumService.segments_for_grade`) -/

structure CurDocument where
  id : Nat
  status : String
deriving DecidableEq

structure CurSegment where
  document_id : Nat
  grade_label : Option String
  area : Option String
  start_line : Option Nat
deriving DecidableEq

/-- Embeds `area.asc().nullslast()` comparison. -/
def optStrLT : Option String → Option String → Bool
  | some a, some b => a < b
  | some _, none => true
  | none, _ => false

/-- Embeds `start_line.asc().nullslast()` comparison. -/
def optNatLE : Option Nat → Option Nat → Bool
  | some a, some b => a ≤ b
  | some _, none => true
  | none, none => true
  | none, some _ => false

/-- The `order_by` of `segments_for_grade`: document id, then area with
nulls last, then start line with nulls last. -/
def segLE (a b : CurSegment) : Bool :=
  if a.document_id < b.document_id then true
  else if b.document_id < a.document_id then false
  else if optStrLT a.area b.area then true
  else if optStrLT b.area a.area then false
  else optNatLE a.start_line b.start_line

def segRel (a b : CurSegment) : Prop := segLE a b = true

instance : DecidableRel segRel := fun a b => instDecidableEqBool (segLE a b) true

/-- The database's `ORDER BY`, modeled as a stable sort of the row list. -/
def sortRows (rows : List CurSegment) : List CurSegment :=
  List.insertionSort segRel rows

/-- Embeds `_apply_limit`'s per-document counting loop; newer counts are consed in
front so the first hit is the current one. -/
def limitGo (limit : Nat) (counts : List (Nat × Nat)) : List CurSegment → List CurSegment
  | [] => []
  | s :: t =>
    let count := (((counts.find? (fun kv => kv.1 = s.document_id)).map (fun kv => kv.2)).getD 0)
    if limit ≤ count then limitGo limit counts t
    else s :: limitGo limit ((s.document_id, count + 1) :: counts) t

/-- Embeds `_apply_limit`: `None` and `0` are falsy and leave the rows alone. -/
def applyLimit (limitPerDoc : Option Nat) (rows : List CurSegment) : List CurSegment :=
  match limitPerDoc with
  | none => rows
  | some 0 => rows
  | some (k + 1) => limitGo (k + 1) [] rows

/-- The `_fetch` helper of `segments_for_grade`: order the rows and apply
the per-document cap. -/
def fetchRows (limitPerDoc : Option Nat) (rows : List CurSegment) : List CurSegment :=
  applyLimit limitPerDoc (sortRows rows)

/-- The base rows of the query: segments whose document id is among the
ready documents' ids (`base_query`). -/
def baseRows (allSegments : List CurSegment) (documents : List CurDocument) :
    List CurSegment :=
  allSegments.filter (fun s =>
    ((documents.filter (fun d => d.status = "ready")).map (fun d => d.id)).contains
      s.document_id)

/-- The final fallback of `segments_for_grade`: grade-agnostic (`NULL`
grade) rows when enabled and non-empty, else all base rows. -/
def generalStage (base : List CurSegment) (limitPerDoc : Option Nat)
    (fallbackToGeneral : Bool) : List CurSegment :=
  if fallbackToGeneral &&
      !(fetchRows limitPerDoc (base.filter (fun s => s.grade_label.isNone))).isEmpty then
    fetchRows limitPerDoc (base.filter (fun s => s.grade_label.isNone))
  else fetchRows limitPerDoc base

/-- The grade stage of `segments_for_grade`: grade-matching rows when the
label is truthy and they exist, else the general stage. -/
def gradeStage (base : List CurSegment) (gradeLabel : Option String)
    (limitPerDoc : Option Nat) (fallbackToGeneral : Bool) : List CurSegment :=
  if truthyOptStr gradeLabel &&
      !(fetchRows limitPerDoc (base.filter (fun s => s.grade_label = gradeLabel))).isEmpty then
    fetchRows limitPerDoc (base.filter (fun s => s.grade_label = gradeLabel))
  else generalStage base limitPerDoc fallbackToGeneral

/-- Embeds `CurriculumService.segments_for_grade`.  `allSegments` is the
`CurriculumSegment` table. -/
def segmentsForGrade (allSegments : List CurSegment) (documents : List CurDocument)
    (gradeLabel : Option String) (limitPerDoc : Option Nat) (fallbackToGeneral : Bool) :
    List CurSegment :=
  if ((documents.filter (fun d => d.status = "ready")).map (fun d => d.id)).isEmpty then []
  else gradeStage (baseRows allSegments documents) gradeLabel limitPerDoc fallbackToGeneral

/-- The three-stage row selection exactly as the claim words it, with the
existence tests taken over the unfiltered base rows. -/
def specStageRows (base : List CurSegment) (gradeLabel : Option String)
    (fallbackToGeneral : Bool) : List CurSegment :=
  if truthyOptStr gradeLabel && base.any (fun s => s.grade_label = gradeLabel) then
    base.filter (fun s => s.grade_label = gradeLabel)
  else if fallbackToGeneral && base.any (fun s => s.grade_label.isNone) then
    base.filter (fun s => s.grade_label.isNone)
  else base

/-! ## Concrete fixtures used by the theorems -/

/-- A client configured for the networked provider with a credential. -/
def clientEx : AIClientState :=
  { api_key := some "sk-test", provider := "openai", model := "gpt-4o-mini" }

/-- An empty generation context. -/
def ctxEx : AIContext :=
  { scope := none, metrics := [], highlights := [], followups := [],
    learning := { no_help_rate := none, actions := [] } }

def timeEx : PyTime := { day := 1, month := 2, hour := 3, minute := 4 }

def timeEx2 : PyTime := { day := 1, month := 2, hour := 3, minute := 5 }

/-- Embeds `json.loads` on the one response the C4 counterexample backend emits:
the string `[{"descripcion": 3}]` parses to a one-element array holding an
object whose `descripcion` is the integer `3`. -/
def cexJsonParse : String → Option JVal := fun s =>
  if s = "[\x7b\"descripcion\": 3\x7d]" then
    some (.arr [.obj [("descripcion", JVal.num 3)]])
  else none

/-- The full response record the C4 counterexample backend returns. -/
def cexResult : GenResult :=
  { text := "[\x7b\"descripcion\": 3\x7d]", model := "stub", provider := "stub",
    context_snapshot := "" }

/-- A backend stub answering every prompt with that JSON. -/
def cexOracle : String → Except String GenResult := fun _ => .ok cexResult

/-- Embeds `json.loads` on the second counterexample response: the string
`[{"descripcion": "x", "grado": 1e400}]` is valid JSON whose overflowing
float literal parses to `float("inf")`. -/
def cexJsonParse2 : String → Option JVal := fun s =>
  if s = "[\x7b\"descripcion\": \"x\", \"grado\": 1e400\x7d]" then
    some (.arr [.obj [("descripcion", JVal.str "x"), ("grado", JVal.flt .inf)]])
  else none

/-- The response record carrying the overflowing-grade JSON. -/
def cexResult2 : GenResult :=
  { text := "[\x7b\"descripcion\": \"x\", \"grado\": 1e400\x7d]", model := "stub",
    provider := "stub", context_snapshot := "" }

/-- A backend stub answering every prompt with that JSON. -/
def cexOracle2 : String → Except String GenResult := fun _ => .ok cexResult2

/-- A `json.loads` that rejects everything (non-JSON garbage). -/
def failJsonParse : String → Option JVal := fun _ => none

/-- The non-JSON garbage response record. -/
def garbageResult : GenResult :=
  { text := "esto no es json", model := "stub", provider := "stub",
    context_snapshot := "" }

/-- A backend stub answering every prompt with non-JSON garbage. -/
def garbageOracle : String → Except String GenResult := fun _ => .ok garbageResult

/-! ## Theorems -/

/-- C1.  The claim fails on the code: `_chunk_text` advances with
`start = max(end - overlap, start + max_chars)`, so consecutive windows of
`"abcdefghij"` with window size 6 and overlap 2 are `"abcdef"` and `"ghij"`
— they share no text at all — and for `"abcd\nefghij"` the split backs off
to the line break at index 4 but the next window starts at the hard
boundary 6, so the character `e` between the break and the hard boundary
appears in no window. -/
theorem chunkText_no_overlap_and_losses :
    chunkText "abcdefghij" 6 2 = ["abcdef", "ghij"] ∧
    chunkText "abcd\nefghij" 6 2 = ["abcd", "fghij"] ∧
    ∀ w ∈ chunkText "abcd\nefghij" 6 2, (w.toList.contains 'e') = false := by
  refine ⟨by decide, by decide, ?_⟩
  decide

/-- C2.  On the scenario text, `segment` does produce exactly two segments
with areas `"Matemática"` and `"Ciencias Sociales"`, but both carry
`grade_label = none`, not `"3"`: the grade regex has no alternative for the
apocope `"Tercer"`, and even the regular form `"Tercero grado"` normalizes
to `none` because `normalize_grade_label` deletes every occurrence of
`"er"` before looking up the alias map — although the seeded catalog itself
maps `"tercero"` to `"3"`. -/
theorem segmentText_scenario :
    segmentText defaultConfig
        "Tercer grado\nMATEMÁTICA\nSumar y restar hasta 100.\n\nCiencias Sociales\nLas familias y sus costumbres." =
      [{ grade_label := none, area := some "Matemática",
         section_title := some "Matemática",
         content_text := "MATEMÁTICA\nSumar y restar hasta 100.",
         start_line := 1, end_line := 4 },
       { grade_label := none, area := some "Ciencias Sociales",
         section_title := some "Ciencias Sociales",
         content_text := "Ciencias Sociales\nLas familias y sus costumbres.",
         start_line := 4, end_line := 6 }] ∧
    normalizeGradeLabel defaultConfig (some "Tercero grado") = none ∧
    ("tercero", "3") ∈ defaultConfig.gradeAliases := by
  refine ⟨by decide, by decide, by decide⟩

/-- C8.  The claim fails on the `pdftotext` path: when the binary exits with
status 0 and prints a non-empty but whitespace-only output (as it does for
a scanned PDF, emitting one form feed per page), `_extract_pdf_text`
returns that output instead of failing — only the in-process fallback
checks for non-whitespace content. -/
theorem extractPdfText_returns_whitespace :
    extractPdfText (some { returncode := 0, stdout := "\n\x0c", stderr := "" })
        (.pages []) = .ok "\n\x0c" ∧
    "\n\x0c" ≠ "" ∧
    ("\n\x0c".toList.all isPySpace) = true ∧
    extractPdfTextPure (.pages ["\n\x0c"]) =
      .error "No se pudo leer el PDF sin pdftotext: El PDF no contiene texto legible." := by
  refine ⟨rfl, by decide, by decide, rfl⟩

/-- C9.  If `_segment_text` raises during heading detection or segment
construction, the document is committed in `error` status with the caught
message and an empty segment batch; on a normal return the full batch is
persisted and the document becomes `ready`. -/
theorem ingestDocument_error_empty_batch (message : String)
    (segments : List SegmentRecord) :
    (ingestDocument (.error message)).status = "error" ∧
    (ingestDocument (.error message)).error_message = some message ∧
    (ingestDocument (.error message)).persisted_segments = [] ∧
    (ingestDocument (.ok segments)).status = "ready" ∧
    (ingestDocument (.ok segments)).persisted_segments = segments := by
  refine ⟨rfl, rfl, rfl, rfl, rfl⟩

/-- C3.  Whenever the networked call fails (HTTP error, network error,
timeout, undecodable body) or delivers an empty message, `generate` returns
the offline-heuristic result — no exception escapes — and the returned
record's `provider` is `"heuristic"`, not `"openai"`. -/
theorem generate_falls_back_offline (self : AIClientState) (net : NetOutcome)
    (now : PyTime) (prompt : String) (ctx : AIContext)
    (h : ∀ respModel content, net = .ok respModel content → pyStrip content = "") :
    generate self net now prompt ctx = heuristicResponse self now prompt ctx (some "heuristic") ∧
    (generate self net now prompt ctx).provider = "heuristic" := by
  have hfb : ∀ r, generate self net now prompt ctx = r →
      r = heuristicResponse self now prompt ctx (some "heuristic") := by
    intro r hr
    subst hr
    unfold generate
    by_cases hp : (self.provider = "openai" && truthyOptStr self.api_key) = true
    · rw [if_pos hp]
      cases net with
      | httpError code detail => rfl
      | urlError reason => rfl
      | timeout => rfl
      | badPayload message => rfl
      | ok respModel content =>
        have hempty := h respModel content rfl
        simp [openaiResponse, hempty]
    · rw [if_neg hp]
  have heq := hfb _ rfl
  refine ⟨heq, ?_⟩
  rw [heq]
  simp [heuristicResponse, pyOrStr]

/-- Witness for C3 at a concrete input: a timed-out call on a credentialed
networked client yields the heuristic fallback result. -/
theorem generate_falls_back_offline_witness :
    generate clientEx .timeout timeEx "p" ctxEx =
      heuristicResponse clientEx timeEx "p" ctxEx (some "heuristic") ∧
    (generate clientEx .timeout timeEx "p" ctxEx).provider = "heuristic" :=
  generate_falls_back_offline clientEx .timeout timeEx "p" ctxEx
    (fun _ _ h => by cases h)

/-- C6, counterexample.  The offline heuristic embeds the wall-clock
timestamp in its text, so two invocations with identical prompt and context
but clock readings one minute apart return different results: it is not
deterministic in its inputs alone. -/
theorem heuristicResponse_differs_across_minutes :
    heuristicResponse clientEx timeEx "p" ctxEx none ≠
      heuristicResponse clientEx timeEx2 "p" ctxEx none := by
  decide

/-- C6, amended.  The heuristic is network-free by construction (it is a
pure function of client state, clock, prompt and context) and always
succeeds; it is deterministic given the clock: equal formatted timestamps
give identical results, and the `model` and `provider` fields never depend
on the clock at all. -/
theorem heuristicResponse_deterministic_given_clock (self : AIClientState)
    (t1 t2 : PyTime) (prompt : String) (ctx : AIContext)
    (providerOverride : Option String) (h : fmtTime t1 = fmtTime t2) :
    heuristicResponse self t1 prompt ctx providerOverride =
      heuristicResponse self t2 prompt ctx providerOverride ∧
    (heuristicResponse self t1 prompt ctx providerOverride).model = "heuristic" ∧
    (heuristicResponse self t1 prompt ctx providerOverride).provider =
      pyOrStr providerOverride self.provider := by
  refine ⟨?_, rfl, rfl⟩
  unfold heuristicResponse
  rw [h]

/-- Witness for C6 (amended) at a concrete input. -/
theorem heuristicResponse_deterministic_given_clock_witness :
    heuristicResponse clientEx timeEx "p" ctxEx none =
      heuristicResponse clientEx timeEx "p" ctxEx none ∧
    (heuristicResponse clientEx timeEx "p" ctxEx none).model = "heuristic" ∧
    (heuristicResponse clientEx timeEx "p" ctxEx none).provider =
      pyOrStr none clientEx.provider :=
  heuristicResponse_deterministic_given_clock clientEx timeEx timeEx "p" ctxEx none rfl

/-- C7.  Provider construction follows the layered fallback chain exactly:
a validated per-call override (unsupported values are dropped, never an
error), else the environment default, else the networked provider when a
credential is present, else the offline heuristic — stated as equality with
the resolver-chain reading of the specification. -/
theorem mkAIClient_provider_spec (env : AIEnv) (providerOverride modelOverride : Option String) :
    (mkAIClient env providerOverride modelOverride).provider = specProvider env providerOverride := by
  show resolveProvider env providerOverride = specProvider env providerOverride
  unfold resolveProvider specProvider specProviderResolvers
  set norm := strLower (pyStrip (pyOrStr providerOverride "")) with hn
  by_cases h1 : norm = "openai" || norm = "heuristic"
  · have hne : norm ≠ "" := by
      rcases Bool.or_eq_true_iff.mp h1 with h | h
      · simp only [decide_eq_true_eq] at h; rw [h]; decide
      · simp only [decide_eq_true_eq] at h; rw [h]; decide
    simp [h1, hne, List.findSome?]
  · simp only [h1]
    by_cases h0 : norm = ""
    · simp [h0, List.findSome?]
      by_cases h2 : truthyOptStr env.ai_provider
      · simp [h2]
      · simp [h2]
        by_cases h3 : truthyOptStr (pyOrOpt env.ai_api_key env.openai_api_key)
        · simp [h3]
        · simp [h3]
    · simp [h0, h1, List.findSome?]
      by_cases h2 : truthyOptStr env.ai_provider
      · simp [h2]
      · simp [h2]
        by_cases h3 : truthyOptStr (pyOrOpt env.ai_api_key env.openai_api_key)
        · simp [h3]
        · simp [h3]

/-! ### C4: tolerance of the extraction pipeline -/

/-- A field value whose `(payload.get(k) or "").strip()` cannot raise:
absent, a string, or falsy. -/
def strOrFalsy (v : Option JVal) : Prop :=
  match v with
  | none => True
  | some (.str _) => True
  | some w => jTruthy w = false

/-- A `grado` value on which `_coerce_grade`'s `str(int(value))` cannot
raise: anything except a non-finite float (`Infinity`, `-Infinity`, `NaN`).
-/
def coercibleGrade (v : Option JVal) : Prop :=
  match v with
  | some (.flt .inf) => False
  | some (.flt .ninf) => False
  | some (.flt .nan) => False
  | _ => True

/-- A backend outcome whose parsed items cannot make the item loop raise:
either the call raised (and is caught), or every parsed item's
`descripcion` and `area` are strings or absent/falsy and its `grado` is not
a non-finite float. -/
def safePayloads (jsonParse : String → Option JVal) (outcome : Except String GenResult) : Prop :=
  match outcome with
  | .error _ => True
  | .ok r => ∀ p ∈ parseLlmPayload jsonParse r.text,
      strOrFalsy (jGet p "descripcion") ∧ strOrFalsy (jGet p "area") ∧
        coercibleGrade (jGet p "grado")

theorem pyGetStrOr_ok (p : List (String × JVal)) (k : String)
    (h : strOrFalsy (jGet p k)) : ∃ s, pyGetStrOr p k = .ok s := by
  unfold pyGetStrOr
  unfold strOrFalsy at h
  cases hj : jGet p k with
  | none => exact ⟨"", rfl⟩
  | some v =>
    rw [hj] at h
    cases v with
    | str s =>
      by_cases ht : jTruthy (JVal.str s) = true
      · exact ⟨pyStrip s, by simp [ht]⟩
      · have hf : jTruthy (JVal.str s) = false := eq_false_of_ne_true ht
        exact ⟨"", by simp [hf]⟩
    | null => exact ⟨"", by simp [h]⟩
    | bool b => exact ⟨"", by simp [h]⟩
    | num n => exact ⟨"", by simp [h]⟩
    | flt f => exact ⟨"", by simp [h]⟩
    | arr xs => exact ⟨"", by simp [h]⟩
    | obj fs => exact ⟨"", by simp [h]⟩

theorem coerceGrade_ok (v : Option JVal) (h : coercibleGrade v) :
    ∃ g, coerceGrade v = .ok g := by
  unfold coercibleGrade at h
  cases v with
  | none => exact ⟨none, rfl⟩
  | some w =>
    cases w with
    | null => exact ⟨none, rfl⟩
    | bool b => exact ⟨_, rfl⟩
    | num n => exact ⟨_, rfl⟩
    | flt f =>
      cases f with
      | finite q => exact ⟨_, rfl⟩
      | inf => cases h
      | ninf => cases h
      | nan => cases h
    | str s => exact ⟨_, rfl⟩
    | arr xs => exact ⟨_, rfl⟩
    | obj fs => exact ⟨_, rfl⟩

theorem itemsOfPayloads_ok (cfg : CatalogConfig) (i : Nat)
    (ps : List (List (String × JVal)))
    (h : ∀ p ∈ ps, strOrFalsy (jGet p "descripcion") ∧ strOrFalsy (jGet p "area") ∧
      coercibleGrade (jGet p "grado")) :
    ∃ items, itemsOfPayloads cfg i ps = .ok items := by
  induction ps with
  | nil => exact ⟨[], rfl⟩
  | cons p t ih =>
    obtain ⟨hd, ha, hg⟩ := h p (List.mem_cons_self p t)
    obtain ⟨d, hdo⟩ := pyGetStrOr_ok p "descripcion" hd
    obtain ⟨a, hao⟩ := pyGetStrOr_ok p "area" ha
    obtain ⟨g, hgo⟩ := coerceGrade_ok (jGet p "grado") hg
    obtain ⟨tl, htl⟩ := ih (fun q hq => h q (List.mem_cons_of_mem _ hq))
    by_cases hde : d = ""
    · exact ⟨tl, by simp [itemsOfPayloads, hdo, hde, htl]⟩
    · exact ⟨_, by simp [itemsOfPayloads, hdo, hde, hao, hgo, htl]; rfl⟩

theorem windowItems_of_unparseable (jsonParse : String → Option JVal) (cfg : CatalogConfig)
    (i : Nat) (r : GenResult) (h : parseLlmPayload jsonParse r.text = []) :
    windowItems jsonParse cfg i (.ok r) = .ok [] := by
  show itemsOfPayloads cfg i (parseLlmPayload jsonParse r.text) = .ok []
  rw [h]
  rfl

theorem windowItems_ok (jsonParse : String → Option JVal) (cfg : CatalogConfig)
    (i : Nat) (outcome : Except String GenResult) (h : safePayloads jsonParse outcome) :
    ∃ items, windowItems jsonParse cfg i outcome = .ok items := by
  cases outcome with
  | error e => exact ⟨[], rfl⟩
  | ok r =>
    unfold safePayloads at h
    exact itemsOfPayloads_ok cfg i _ h

theorem collectWindows_ok (jsonParse : String → Option JVal) (cfg : CatalogConfig)
    (oracle : String → Except String GenResult)
    (ws : List (Nat × String)) (h : ∀ prompt, safePayloads jsonParse (oracle prompt)) :
    ∃ items, collectWindows jsonParse cfg oracle ws = .ok items := by
  induction ws with
  | nil => exact ⟨[], rfl⟩
  | cons w t ih =>
    obtain ⟨i, frag⟩ := w
    obtain ⟨items, hi⟩ := windowItems_ok jsonParse cfg i (oracle (buildPrompt frag i)) (h _)
    obtain ⟨tail, htl⟩ := ih
    exact ⟨items ++ tail, by simp [collectWindows, hi, htl]⟩

theorem collectWindows_empty (jsonParse : String → Option JVal) (cfg : CatalogConfig)
    (oracle : String → Except String GenResult) (ws : List (Nat × String))
    (h : ∀ prompt r, oracle prompt = .ok r → parseLlmPayload jsonParse r.text = []) :
    collectWindows jsonParse cfg oracle ws = .ok [] := by
  induction ws with
  | nil => rfl
  | cons w t ih =>
    obtain ⟨i, frag⟩ := w
    have hw : windowItems jsonParse cfg i (oracle (buildPrompt frag i)) = .ok [] := by
      cases ho : oracle (buildPrompt frag i) with
      | error e => rfl
      | ok r => exact windowItems_of_unparseable _ _ _ _ (h _ r ho)
    simp [collectWindows, hw, ih]

/-- C4, amended.  Under the stated field-shape condition — every parsed
item's `descripcion` and `area` string-or-falsy and its `grado` not a
non-finite float — the pipeline never raises: the collection returns
normally, a window whose backend call raised contributes zero items, a
window whose response fails tolerant parsing (or parses to neither a list
nor a dict with a recognized list key) contributes zero items, and if every
window is unparseable the result is the empty item list. -/
theorem collectLlmItems_tolerant (jsonParse : String → Option JVal) (cfg : CatalogConfig)
    (oracle : String → Except String GenResult) (text : String) (maxChars overlap : Nat)
    (h : ∀ prompt, safePayloads jsonParse (oracle prompt)) :
    (∃ items, collectLlmItems jsonParse cfg oracle text maxChars overlap = .ok items) ∧
    (∀ i e, windowItems jsonParse cfg i (.error e) = .ok []) ∧
    (∀ i r, parseLlmPayload jsonParse r.text = [] →
      windowItems jsonParse cfg i (.ok r) = .ok []) ∧
    ((∀ prompt r, oracle prompt = .ok r → parseLlmPayload jsonParse r.text = []) →
      collectLlmItems jsonParse cfg oracle text maxChars overlap = .ok []) :=
  ⟨collectWindows_ok jsonParse cfg oracle _ h,
    fun _ _ => rfl,
    fun i r hr => windowItems_of_unparseable jsonParse cfg i r hr,
    fun hall => collectWindows_empty jsonParse cfg oracle _ hall⟩

/-- C4, counterexample.  The claim's universal "never raises for every
backend behavior" fails in two ways: a backend answering the valid JSON
`[{"descripcion": 3}]` — an integer where a string is expected — makes the
item loop call `.strip()` on an `int` and the `AttributeError` escapes the
pipeline; and a backend answering `[{"descripcion": "x", "grado": 1e400}]`
— whose overflowing literal `json.loads` turns into `float("inf")` — makes
`_coerce_grade` run `str(int(value))` and the `OverflowError` escapes
(both modeled as `Except.error`). -/
theorem collectLlmItems_raises_on_malformed_items :
    collectLlmItems cexJsonParse defaultConfig cexOracle "hola" 6000 400 =
      .error "AttributeError: strip" ∧
    collectLlmItems cexJsonParse2 defaultConfig cexOracle2 "hola" 6000 400 =
      .error "OverflowError: cannot convert float infinity to integer" :=
  ⟨rfl, rfl⟩

/-- Witness for C4 (amended): a backend returning non-JSON garbage for
every call yields the empty item list, with every hypothesis discharged at
this concrete input. -/
theorem collectLlmItems_tolerant_witness :
    collectLlmItems failJsonParse defaultConfig garbageOracle "hola mundo" 6000 400 =
      .ok [] :=
  (collectLlmItems_tolerant failJsonParse defaultConfig garbageOracle "hola mundo" 6000 400
    (fun prompt => by
      show ∀ p ∈ parseLlmPayload failJsonParse garbageResult.text, _
      intro p hp
      rw [show parseLlmPayload failJsonParse garbageResult.text = [] from rfl] at hp
      cases hp)).2.2.2
    (fun prompt r hr => by
      have h0 : r = garbageResult := (Except.ok.inj hr).symm
      rw [h0]
      rfl)

/-! ### C10: the grade-filtered segment query -/

theorem limitGo_mem {k : Nat} {l : List CurSegment} {s : CurSegment} :
    ∀ {counts : List (Nat × Nat)}, s ∈ limitGo k counts l → s ∈ l := by
  induction l with
  | nil => intro counts h; cases h
  | cons x t ih =>
    intro counts h
    unfold limitGo at h
    by_cases hc : k ≤ (((List.find? (fun kv => kv.1 = x.document_id) counts).map
        (fun kv => kv.2)).getD 0)
    · rw [if_pos hc] at h
      exact List.mem_cons_of_mem x (ih h)
    · rw [if_neg hc] at h
      rcases List.mem_cons.mp h with h1 | h2
      · exact h1 ▸ List.mem_cons_self _ _
      · exact List.mem_cons_of_mem x (ih h2)

theorem applyLimit_mem {limit : Option Nat} {rows : List CurSegment} {s : CurSegment}
    (h : s ∈ applyLimit limit rows) : s ∈ rows := by
  cases limit with
  | none => exact h
  | some k =>
    cases k with
    | zero => exact h
    | succ k0 => exact limitGo_mem h

theorem applyLimit_eq_nil {limit : Option Nat} {rows : List CurSegment} :
    applyLimit limit rows = [] ↔ rows = [] := by
  cases limit with
  | none => exact Iff.rfl
  | some k =>
    cases k with
    | zero => exact Iff.rfl
    | succ k0 =>
      cases rows with
      | nil => simp [applyLimit, limitGo]
      | cons x t => simp [applyLimit, limitGo]

theorem sortRows_mem {rows : List CurSegment} {s : CurSegment} :
    s ∈ sortRows rows ↔ s ∈ rows :=
  (List.perm_insertionSort segRel rows).mem_iff

theorem sortRows_eq_nil {rows : List CurSegment} :
    sortRows rows = [] ↔ rows = [] := by
  constructor
  · intro h
    have hlen := (List.perm_insertionSort segRel rows).length_eq
    unfold sortRows at h
    rw [h] at hlen
    exact List.length_eq_zero.mp hlen.symm
  · intro h
    rw [h]
    rfl

theorem fetchRows_eq_nil {limit : Option Nat} {rows : List CurSegment} :
    fetchRows limit rows = [] ↔ rows = [] := by
  unfold fetchRows
  rw [applyLimit_eq_nil, sortRows_eq_nil]

theorem fetchRows_isEmpty {limit : Option Nat} {rows : List CurSegment} :
    (fetchRows limit rows).isEmpty = rows.isEmpty := by
  by_cases h : rows = []
  · subst h
    rw [fetchRows_eq_nil.mpr rfl]
  · have h2 : fetchRows limit rows ≠ [] := fun hc => h (fetchRows_eq_nil.mp hc)
    rw [List.isEmpty_eq_false.mpr h2, Eq.comm, List.isEmpty_eq_false]
    exact h

theorem fetchRows_mem {limit : Option Nat} {rows : List CurSegment} {s : CurSegment}
    (h : s ∈ fetchRows limit rows) : s ∈ rows :=
  sortRows_mem.mp (applyLimit_mem h)

theorem filter_isEmpty_eq_not_any {α : Type} (p : α → Bool) (l : List α) :
    (l.filter p).isEmpty = !(l.any p) := by
  induction l with
  | nil => rfl
  | cons x t ih =>
    by_cases hp : p x
    · simp [List.filter, List.any, hp]
    · simp only [Bool.not_eq_true] at hp
      simp [List.filter, List.any, hp, ih]

/-- C10.  The query returns only segments of ready documents, and equals
the claim's three-stage selection (grade matches if any; else, when the
fallback is enabled, null-grade rows if any; else every base row), each
stage ordered and capped per document. -/
theorem segmentsForGrade_spec (allSegments : List CurSegment) (documents : List CurDocument)
    (gradeLabel : Option String) (limitPerDoc : Option Nat) (fallbackToGeneral : Bool) :
    segmentsForGrade allSegments documents gradeLabel limitPerDoc fallbackToGeneral =
      fetchRows limitPerDoc
        (specStageRows (baseRows allSegments documents) gradeLabel fallbackToGeneral) ∧
    ∀ s ∈ segmentsForGrade allSegments documents gradeLabel limitPerDoc fallbackToGeneral,
      ∃ d ∈ documents, d.status = "ready" ∧ s.document_id = d.id := by
  have hstage : ∀ base : List CurSegment,
      gradeStage base gradeLabel limitPerDoc fallbackToGeneral =
        fetchRows limitPerDoc (specStageRows base gradeLabel fallbackToGeneral) := by
    intro base
    unfold gradeStage generalStage specStageRows
    rw [fetchRows_isEmpty, fetchRows_isEmpty,
        filter_isEmpty_eq_not_any, filter_isEmpty_eq_not_any]
    by_cases hg : (truthyOptStr gradeLabel && base.any fun s => s.grade_label = gradeLabel) = true
    · rw [if_pos, if_pos hg]
      rw [Bool.and_eq_true] at hg ⊢
      exact ⟨hg.1, by rw [hg.2]; rfl⟩
    · rw [if_neg, if_neg hg]
      · by_cases hf : (fallbackToGeneral && base.any fun s => s.grade_label.isNone) = true
        · rw [if_pos, if_pos hf]
          rw [Bool.and_eq_true] at hf ⊢
          exact ⟨hf.1, by rw [hf.2]; rfl⟩
        · rw [if_neg, if_neg hf]
          intro hc
          apply hf
          rw [Bool.and_eq_true] at hc ⊢
          refine ⟨hc.1, ?_⟩
          have := hc.2
          rwa [Bool.not_not] at this
      · intro hc
        apply hg
        rw [Bool.and_eq_true] at hc ⊢
        refine ⟨hc.1, ?_⟩
        have := hc.2
        rwa [Bool.not_not] at this
  have hmain :
      segmentsForGrade allSegments documents gradeLabel limitPerDoc fallbackToGeneral =
        fetchRows limitPerDoc
          (specStageRows (baseRows allSegments documents) gradeLabel fallbackToGeneral) := by
    unfold segmentsForGrade
    by_cases hids :
        (((documents.filter (fun d => d.status = "ready")).map (fun d => d.id)).isEmpty) = true
    · rw [if_pos hids]
      have hbase : baseRows allSegments documents = [] := by
        unfold baseRows
        apply List.filter_eq_nil.mpr
        intro a _
        rw [List.isEmpty_iff.mp hids]
        simp
      rw [hbase]
      have : specStageRows [] gradeLabel fallbackToGeneral = [] := by
        unfold specStageRows
        simp
      rw [this, fetchRows_eq_nil.mpr rfl]
    · rw [if_neg hids]
      exact hstage _
  refine ⟨hmain, ?_⟩
  intro s hs
  rw [hmain] at hs
  have hsb : s ∈ baseRows allSegments documents := by
    have h1 := fetchRows_mem hs
    unfold specStageRows at h1
    split_ifs at h1 with h2 h3
    · exact (List.mem_filter.mp h1).1
    · exact (List.mem_filter.mp h1).1
    · exact h1
  unfold baseRows at hsb
  have h2 := (List.mem_filter.mp hsb).2
  rw [List.contains_eq_any_beq, List.any_eq_true] at h2
  obtain ⟨i, hi, hieq⟩ := h2
  rw [List.mem_map] at hi
  obtain ⟨d, hd, hdid⟩ := hi
  rw [List.mem_filter] at hd
  refine ⟨d, hd.1, by simpa using hd.2, ?_⟩
  have hval : s.document_id = i := by simpa using hieq
  rw [hval, ← hdid]

/-! ### C5: segment ranges are ordered, disjoint and in bounds -/

theorem areaHeadingIdx_bounds (cfg : CatalogConfig) :
    ∀ (ls : List String) (i : Nat), ∀ p ∈ areaHeadingIdx cfg ls i,
      i ≤ p.1 ∧ p.1 < i + ls.length := by
  intro ls
  induction ls with
  | nil => intro i p hp; cases hp
  | cons l t ih =>
    intro i p hp
    unfold areaHeadingIdx at hp
    cases hl : areaHeadingLabel cfg l with
    | some a =>
      rw [hl] at hp
      rcases List.mem_cons.mp hp with h1 | h2
      · subst h1
        constructor
        · exact Nat.le_refl i
        · simp
      · have := ih (i + 1) p h2
        constructor
        · omega
        · simp only [List.length_cons]
          omega
    | none =>
      rw [hl] at hp
      have := ih (i + 1) p hp
      constructor
      · omega
      · simp only [List.length_cons]
        omega

theorem areaHeadingIdx_pairwise (cfg : CatalogConfig) :
    ∀ (ls : List String) (i : Nat),
      List.Pairwise (fun p q : Nat × String => p.1 < q.1) (areaHeadingIdx cfg ls i) := by
  intro ls
  induction ls with
  | nil => intro i; exact List.Pairwise.nil
  | cons l t ih =>
    intro i
    unfold areaHeadingIdx
    cases hl : areaHeadingLabel cfg l with
    | some a =>
      refine List.Pairwise.cons ?_ (ih (i + 1))
      intro q hq
      have := areaHeadingIdx_bounds cfg t (i + 1) q hq
      omega
    | none => exact ih (i + 1)

theorem gradeBreaksFrom_bounds (cfg : CatalogConfig) :
    ∀ (ls : List String) (i : Nat), ∀ b ∈ gradeBreaksFrom cfg ls i,
      i ≤ b.1 ∧ b.1 < i + ls.length := by
  intro ls
  induction ls with
  | nil => intro i b hb; cases hb
  | cons l t ih =>
    intro i b hb
    unfold gradeBreaksFrom at hb
    cases hl : gradeHeadMatch (cleanHeadingNoise l) with
    | some g =>
      rw [hl] at hb
      rcases List.mem_cons.mp hb with h1 | h2
      · subst h1
        constructor
        · exact Nat.le_refl i
        · simp
      · have := ih (i + 1) b h2
        constructor
        · omega
        · simp only [List.length_cons]
          omega
    | none =>
      rw [hl] at hb
      have := ih (i + 1) b hb
      constructor
      · omega
      · simp only [List.length_cons]
        omega

theorem gradeBreaksFrom_pairwise (cfg : CatalogConfig) :
    ∀ (ls : List String) (i : Nat),
      List.Pairwise (fun b c : Nat × Option String × String => b.1 < c.1)
        (gradeBreaksFrom cfg ls i) := by
  intro ls
  induction ls with
  | nil => intro i; exact List.Pairwise.nil
  | cons l t ih =>
    intro i
    unfold gradeBreaksFrom
    cases hl : gradeHeadMatch (cleanHeadingNoise l) with
    | some g =>
      refine List.Pairwise.cons ?_ (ih (i + 1))
      intro c hc
      have := gradeBreaksFrom_bounds cfg t (i + 1) c hc
      omega
    | none => exact ih (i + 1)

theorem buildAreaSegs_mem_start (a limit : Nat) :
    ∀ (idxs : List (Nat × String)), ∀ seg ∈ buildAreaSegs a limit idxs,
      ∃ p ∈ idxs, seg.2.1 = a + p.1 := by
  intro idxs
  induction idxs with
  | nil => intro seg hseg; cases hseg
  | cons x rest ih =>
    intro seg hseg
    obtain ⟨r, name⟩ := x
    unfold buildAreaSegs at hseg
    rcases List.mem_cons.mp hseg with h1 | h2
    · exact ⟨(r, name), List.mem_cons_self _ _, by rw [h1]⟩
    · obtain ⟨p, hp, he⟩ := ih seg h2
      exact ⟨p, List.mem_cons_of_mem _ hp, he⟩

theorem buildAreaSegs_bounds (a limit : Nat) :
    ∀ (idxs : List (Nat × String)),
      List.Pairwise (fun p q : Nat × String => p.1 < q.1) idxs →
      (∀ p ∈ idxs, p.1 < limit) →
      ∀ seg ∈ buildAreaSegs a limit idxs,
        seg.2.1 < seg.2.2 ∧ seg.2.2 ≤ a + limit := by
  intro idxs
  induction idxs with
  | nil => intro _ _ seg hseg; cases hseg
  | cons x rest ih =>
    intro hinc hlt seg hseg
    obtain ⟨r, name⟩ := x
    unfold buildAreaSegs at hseg
    rcases List.mem_cons.mp hseg with h1 | h2
    · subst h1
      cases rest with
      | nil =>
        have := hlt (r, name) (List.mem_cons_self _ _)
        simp only []
        omega
      | cons y t =>
        have hr2 : r < y.1 := List.rel_of_pairwise_cons hinc (List.mem_cons_self _ _)
        have hy := hlt y (List.mem_cons_of_mem _ (List.mem_cons_self _ _))
        simp only []
        omega
    · exact ih hinc.of_cons (fun p hp => hlt p (List.mem_cons_of_mem _ hp)) seg h2

theorem buildAreaSegs_pairwise (a limit : Nat) :
    ∀ (idxs : List (Nat × String)),
      List.Pairwise (fun p q : Nat × String => p.1 < q.1) idxs →
      List.Pairwise (fun x y : String × Nat × Nat => x.2.2 ≤ y.2.1)
        (buildAreaSegs a limit idxs) := by
  intro idxs
  induction idxs with
  | nil => intro _; exact List.Pairwise.nil
  | cons x rest ih =>
    intro hinc
    obtain ⟨r, name⟩ := x
    unfold buildAreaSegs
    refine List.Pairwise.cons ?_ (ih hinc.of_cons)
    intro y hy
    obtain ⟨p, hp, he⟩ := buildAreaSegs_mem_start a limit rest y hy
    cases rest with
    | nil => cases hp
    | cons z t =>
      have hz : z.1 ≤ p.1 := by
        rcases List.mem_cons.mp hp with h1 | h2
        · rw [h1]
        · exact Nat.le_of_lt (List.rel_of_pairwise_cons hinc.of_cons h2)
      simp only []
      omega

theorem splitByArea_bounds (cfg : CatalogConfig) (lines : List String) (a : Nat) :
    ∀ seg ∈ splitByArea cfg lines a,
      a ≤ seg.2.1 ∧ seg.2.1 < seg.2.2 ∧ seg.2.2 ≤ a + lines.length := by
  intro seg hseg
  have hb := buildAreaSegs_bounds a lines.length (areaHeadingIdx cfg lines 0)
    (areaHeadingIdx_pairwise cfg lines 0)
    (fun p hp => by have := areaHeadingIdx_bounds cfg lines 0 p hp; omega)
    seg hseg
  obtain ⟨p, hp, he⟩ := buildAreaSegs_mem_start a lines.length (areaHeadingIdx cfg lines 0) seg hseg
  refine ⟨by omega, hb.1, hb.2⟩

theorem splitByArea_pairwise (cfg : CatalogConfig) (lines : List String) (a : Nat) :
    List.Pairwise (fun x y : String × Nat × Nat => x.2.2 ≤ y.2.1)
      (splitByArea cfg lines a) :=
  buildAreaSegs_pairwise a lines.length (areaHeadingIdx cfg lines 0)
    (areaHeadingIdx_pairwise cfg lines 0)

theorem sliceSegs_mem (cfg : CatalogConfig) (lines : List String)
    (startIdx endIdx : Nat) (g : Option String) (h : String) (hend : endIdx ≤ lines.length) :
    ∀ s ∈ sliceSegs cfg lines startIdx endIdx g h,
      startIdx ≤ s.start_line ∧ s.start_line < s.end_line ∧ s.end_line ≤ endIdx := by
  intro s hs
  unfold sliceSegs at hs
  by_cases hct : pyStrip (String.intercalate "\n" (sliceLines lines startIdx endIdx)) = ""
  · rw [if_pos hct] at hs
    cases hs
  · rw [if_neg hct] at hs
    have hne : sliceLines lines startIdx endIdx ≠ [] := by
      intro hc
      apply hct
      rw [hc]
      rfl
    have hlen : 0 < (sliceLines lines startIdx endIdx).length :=
      List.length_pos.mpr hne
    have hlen2 : (sliceLines lines startIdx endIdx).length =
        min (endIdx - startIdx) (lines.length - startIdx) := by
      unfold sliceLines
      rw [List.length_take, List.length_drop]
    by_cases hae : (splitByArea cfg (sliceLines lines startIdx endIdx) startIdx).isEmpty
    · rw [if_pos hae] at hs
      rcases List.mem_cons.mp hs with h1 | h2
      · subst h1
        refine ⟨Nat.le_refl _, ?_, ?_⟩ <;> simp only [] <;> omega
      · cases h2
    · rw [if_neg hae] at hs
      rw [List.mem_filterMap] at hs
      obtain ⟨seg, hseg, hf⟩ := hs
      have hb := splitByArea_bounds cfg (sliceLines lines startIdx endIdx) startIdx seg hseg
      split at hf
      · cases hf
      · have hrec := Option.some.inj hf
        subst hrec
        simp only []
        omega

theorem sliceSegs_pairwise (cfg : CatalogConfig) (lines : List String)
    (startIdx endIdx : Nat) (g : Option String) (h : String) :
    List.Pairwise (fun x y : SegmentRecord => x.end_line ≤ y.start_line)
      (sliceSegs cfg lines startIdx endIdx g h) := by
  unfold sliceSegs
  by_cases hct : pyStrip (String.intercalate "\n" (sliceLines lines startIdx endIdx)) = ""
  · rw [if_pos hct]
    exact List.Pairwise.nil
  · rw [if_neg hct]
    by_cases hae : (splitByArea cfg (sliceLines lines startIdx endIdx) startIdx).isEmpty
    · rw [if_pos hae]
      exact List.pairwise_singleton _ _
    · rw [if_neg hae]
      rw [List.pairwise_filterMap]
      refine (splitByArea_pairwise cfg (sliceLines lines startIdx endIdx) startIdx).imp ?_
      intro x y hxy
      intro b hb b' hb'
      split at hb
      · cases hb
      · have := Option.some.inj hb
        subst this
        split at hb'
        · cases hb'
        · have := Option.some.inj hb'
          subst this
          simpa using hxy

theorem emitSlices_start_lb (cfg : CatalogConfig) (lines : List String) :
    ∀ (rest : List (Nat × Option String × String)) (b0 : Nat × Option String × String),
      List.Pairwise (fun b c : Nat × Option String × String => b.1 < c.1) (b0 :: rest) →
      (∀ b ∈ b0 :: rest, b.1 ≤ lines.length) →
      ∀ s ∈ emitSlices cfg lines (b0 :: rest), b0.1 ≤ s.start_line := by
  intro rest
  induction rest with
  | nil =>
    intro b0 hinc hle s hs
    obtain ⟨i, g, h⟩ := b0
    unfold emitSlices at hs
    rcases List.mem_append.mp hs with h1 | h2
    · exact (sliceSegs_mem cfg lines i lines.length g h (Nat.le_refl _) s h1).1
    · rw [show emitSlices cfg lines [] = [] from rfl] at h2
      cases h2
  | cons b1 t ih =>
    intro b0 hinc hle s hs
    obtain ⟨i, g, h⟩ := b0
    unfold emitSlices at hs
    rcases List.mem_append.mp hs with h1 | h2
    · have hend : b1.1 ≤ lines.length :=
        hle b1 (List.mem_cons_of_mem _ (List.mem_cons_self _ _))
      have := sliceSegs_mem cfg lines i b1.1 g h hend s (by
        obtain ⟨n1, g1, h1x⟩ := b1
        exact h1)
      exact this.1
    · have hlb := ih b1 hinc.of_cons (fun b hb => hle b (List.mem_cons_of_mem _ hb)) s h2
      have : (i, g, h).1 < b1.1 := List.rel_of_pairwise_cons hinc (List.mem_cons_self _ _)
      omega

theorem emitSlices_bounds (cfg : CatalogConfig) (lines : List String) :
    ∀ (breaks : List (Nat × Option String × String)),
      List.Pairwise (fun b c : Nat × Option String × String => b.1 < c.1) breaks →
      (∀ b ∈ breaks, b.1 ≤ lines.length) →
      ∀ s ∈ emitSlices cfg lines breaks,
        s.start_line < s.end_line ∧ s.end_line ≤ lines.length := by
  intro breaks
  induction breaks with
  | nil => intro _ _ s hs; cases hs
  | cons b0 rest ih =>
    intro hinc hle s hs
    obtain ⟨i, g, h⟩ := b0
    unfold emitSlices at hs
    rcases List.mem_append.mp hs with h1 | h2
    · cases rest with
      | nil =>
        have := sliceSegs_mem cfg lines i lines.length g h (Nat.le_refl _) s h1
        exact ⟨this.2.1, this.2.2⟩
      | cons b1 t =>
        have hend : b1.1 ≤ lines.length :=
          hle b1 (List.mem_cons_of_mem _ (List.mem_cons_self _ _))
        have := sliceSegs_mem cfg lines i b1.1 g h hend s (by
          obtain ⟨n1, g1, h1x⟩ := b1
          exact h1)
        exact ⟨this.2.1, Nat.le_trans this.2.2 hend⟩
    · exact ih hinc.of_cons (fun b hb => hle b (List.mem_cons_of_mem _ hb)) s h2

theorem emitSlices_pairwise (cfg : CatalogConfig) (lines : List String) :
    ∀ (breaks : List (Nat × Option String × String)),
      List.Pairwise (fun b c : Nat × Option String × String => b.1 < c.1) breaks →
      (∀ b ∈ breaks, b.1 ≤ lines.length) →
      List.Pairwise (fun x y : SegmentRecord => x.end_line ≤ y.start_line)
        (emitSlices cfg lines breaks) := by
  intro breaks
  induction breaks with
  | nil => intro _ _; exact List.Pairwise.nil
  | cons b0 rest ih =>
    intro hinc hle
    obtain ⟨i, g, h⟩ := b0
    unfold emitSlices
    rw [List.pairwise_append]
    refine ⟨sliceSegs_pairwise cfg lines i _ g h,
      ih hinc.of_cons (fun b hb => hle b (List.mem_cons_of_mem _ hb)), ?_⟩
    intro x hx y hy
    cases rest with
    | nil => cases hy
    | cons b1 t =>
      have hend : b1.1 ≤ lines.length :=
        hle b1 (List.mem_cons_of_mem _ (List.mem_cons_self _ _))
      have hxb := sliceSegs_mem cfg lines i b1.1 g h hend x (by
        obtain ⟨n1, g1, h1x⟩ := b1
        exact hx)
      have hyb := emitSlices_start_lb cfg lines t b1 hinc.of_cons
        (fun b hb => hle b (List.mem_cons_of_mem _ hb)) y hy
      omega

/-- C5.  For every input text and catalog configuration, the segments of
`_segment_text` are pairwise non-overlapping left-to-right (each segment
ends no later than the next begins), every segment's range is non-empty,
and every range lies within `[0, lineCount)`; hence each line belongs to at
most one segment's range. -/
theorem segmentText_ranges (cfg : CatalogConfig) (rawText : String) :
    List.Pairwise (fun a b : SegmentRecord => a.end_line ≤ b.start_line)
      (segmentText cfg rawText) ∧
    ∀ s ∈ segmentText cfg rawText,
      s.start_line < s.end_line ∧ s.end_line ≤ (pySplitlines rawText).length := by
  unfold segmentText
  by_cases hg : (gradeBreaksFrom cfg (pySplitlines rawText) 0).isEmpty
  · rw [if_pos hg]
    constructor
    · exact emitSlices_pairwise cfg (pySplitlines rawText) _
        (List.pairwise_singleton _ _)
        (by intro b hb; rcases List.mem_singleton.mp hb with rfl; exact Nat.zero_le _)
    · exact emitSlices_bounds cfg (pySplitlines rawText) _
        (List.pairwise_singleton _ _)
        (by intro b hb; rcases List.mem_singleton.mp hb with rfl; exact Nat.zero_le _)
  · rw [if_neg hg]
    have hb := fun b hbmem => (gradeBreaksFrom_bounds cfg (pySplitlines rawText) 0 b hbmem).2
    constructor
    · exact emitSlices_pairwise cfg (pySplitlines rawText) _
        (gradeBreaksFrom_pairwise cfg (pySplitlines rawText) 0)
        (fun b hbm => by have := hb b hbm; omega)
    · exact emitSlices_bounds cfg (pySplitlines rawText) _
        (gradeBreaksFrom_pairwise cfg (pySplitlines rawText) 0)
        (fun b hbm => by have := hb b hbm; omega)

end Estudia
